import Mathlib

/-!
Verification development for the Santa Tracker production build pipeline
(release.js and the development magic helpers). The definitions below are a
shallow embedding of the build script: pure fragments become Lean functions,
the stateful virtual-module cache of the Rollup plugin becomes explicit state
passing, and JavaScript exceptions become `Except.error`. External
collaborators (the compiling loader, the scene matcher, the catalog reader)
are passed in as function parameters, matching the interfaces they expose to
the embedded code.
-/

namespace Santa

/-! ### Path model

Models of the node `path` (posix) functions used by release.js. `path.resolve`
depends on the process working directory, which is passed explicitly as `cwd`
(assumed absolute). Segment normalization drops `.` segments and lets `..` pop
one segment (at the root, `..` is dropped, as in node).
-/

/-- `pat` is a literal prefix of `s` (JS `String.prototype.startsWith`). -/
def strStartsWith (s pat : String) : Bool :=
  pat.data.isPrefixOf s.data

/-- Split a character list at slashes. -/
def splitSegsAux (cur : List Char) : List Char → List (List Char)
  | [] => [cur.reverse]
  | c :: rest =>
    if c = '/' then cur.reverse :: splitSegsAux [] rest
    else splitSegsAux (c :: cur) rest

/-- Segments of a slash-separated path, empty segments dropped. -/
def splitSegs (s : String) : List String :=
  ((splitSegsAux [] s.data).map String.mk).filter (fun x => x ≠ "")

/-- Join segments with slashes. -/
def joinSegs : List String → String
  | [] => ""
  | [s] => s
  | s :: rest => s ++ "/" ++ joinSegs rest

/-- Normalize a segment list: drop single dots, let double dots pop the
accumulator. The accumulator holds already-normalized segments reversed. -/
def normSegs : List String → List String → List String
  | acc, [] => acc.reverse
  | acc, s :: rest =>
    if s = "." then normSegs acc rest
    else if s = ".." then normSegs (acc.drop 1) rest
    else normSegs (s :: acc) rest

/-- Model of node posix `path.resolve(base, id)` with the process working
directory `cwd` passed explicitly (assumed absolute). -/
def pathResolve (cwd base id : String) : String :=
  let combined :=
    if strStartsWith id ("/") then id
    else if strStartsWith base ("/") then base ++ "/" ++ id
    else cwd ++ "/" ++ base ++ "/" ++ id
  "/" ++ joinSegs (normSegs [] (splitSegs combined))

/-- Model of node posix `path.dirname` for paths without doubled or trailing
slashes (the only shapes release.js feeds it). -/
def pathDirname (p : String) : String :=
  let segs := splitSegs p
  if strStartsWith p ("/") then
    match segs with
    | [] => "/"
    | [_] => "/"
    | _ => "/" ++ joinSegs segs.dropLast
  else
    match segs with
    | [] => "."
    | [_] => "."
    | _ => joinSegs segs.dropLast

/-- Model of node posix `path.join` of two pieces (join then normalize). -/
def pathJoin (a b : String) : String :=
  let segs := normSegs [] (splitSegs (a ++ "/" ++ b))
  let j := joinSegs segs
  if strStartsWith a ("/") then "/" ++ j
  else if j = "" then "." else j

/-- `path.join` of three pieces, as used for prod output paths. -/
def pathJoin3 (a b c : String) : String := pathJoin (pathJoin a b) c

/-- Drop the common leading segments of two segment lists. -/
def dropCommon : List String → List String → List String × List String
  | a :: as, b :: bs => if a = b then dropCommon as bs else (a :: as, b :: bs)
  | as, bs => (as, bs)

/-- Model of node posix `path.relative` for two absolute paths. -/
def pathRelative (src dst : String) : String :=
  let f := normSegs [] (splitSegs src)
  let t := normSegs [] (splitSegs dst)
  let p := dropCommon f t
  joinSegs (p.1.map (fun _ => "..") ++ p.2)

/-! ### Association-list lookup

JavaScript objects and `Map`s are modelled as association lists looked up at
the first matching key. -/

/-- First-match lookup in an association list (JS object / `Map.get`). -/
def lookupA {α : Type} : List (String × α) → String → Option α
  | [], _ => none
  | (k, v) :: t, key => if key = k then some v else lookupA t key

/-! ### Entry points and the virtual module resolver

From release.js: `entrypoints` maps a deterministic id `e<n>.js` to
`{scriptNode, dir, code}` (the script node reference, used only for the later
HTML rewrite, is elided); `virtualCache` maps resolved ids to source text;
`virtualLoader.resolveId` seeds roots from the entry registry and compiles
non-root paths through the external loader collaborator;
`virtualLoader.load` consults the cache only. -/

/-- An entry point record: the owning document directory and source text
(release.js `entrypoints.set(id, {scriptNode, dir, code})`, script node
reference elided). -/
structure EntryData where
  dir : String
  code : String
deriving DecidableEq

/-- The entry registry `entrypoints`. -/
abbrev Registry := List (String × EntryData)

/-- Resolver state: the `virtualCache` object plus a chronological log of the
resolved paths handed to the compiling-loader collaborator (one log entry per
`loader(resolved, {compile: true})` invocation). -/
structure ResolverSt where
  cache : List (String × String)
  compiles : List String
deriving DecidableEq

/-- JS property assignment `virtualCache[k] = v`, observed through first-match
lookup: the new binding shadows any older one. -/
def cacheInsert (c : List (String × String)) (k v : String) : List (String × String) :=
  (k, v) :: c

/-- Outcome of a `resolveId` call that did not throw: either a resolved module
id, or `undefined` (fall through to standard filesystem module lookup). -/
inductive Resolution where
  | resolved (id : String)
  | fallthrough
deriving DecidableEq

/-- The base directory against which a non-root identifier is resolved, and
the resulting absolute path: `path.resolve(data ? data.dir :
path.dirname(importer), id)` from release.js `resolveId`. -/
def nonRootTarget (entries : Registry) (cwd id imp : String) : String :=
  pathResolve cwd
    (match lookupA entries imp with
     | some data => data.dir
     | none => pathDirname imp) id

/-- release.js `virtualLoader.resolveId(id, importer)`. The external loader
collaborator is `loader : String → Option String` (`none` models JS
`undefined`, `some body` models `{body}` with `body.toString()` applied).
Root resolution (`importer === undefined`) dereferences the entry registry
record without a guard: a missing record throws a `TypeError`
(`Except.error`), raised before anything is written to the cache. -/
def resolveId (entries : Registry) (loader : String → Option String) (cwd : String)
    (st : ResolverSt) (id : String) (importer : Option String) :
    Except String (Resolution × ResolverSt) :=
  match importer with
  | none =>
    match lookupA entries id with
    | none => .error ("TypeError: cannot read \x27code\x27 of undefined")
    | some data =>
      .ok (.resolved id, { st with cache := cacheInsert st.cache id data.code })
  | some imp =>
    let resolved := nonRootTarget entries cwd id imp
    let st1 := { st with compiles := st.compiles ++ [resolved] }
    match loader resolved with
    | some body =>
      .ok (.resolved resolved, { st1 with cache := cacheInsert st1.cache resolved body })
    | none => .ok (.fallthrough, st1)

/-- release.js `virtualLoader.load(id)`: consults the cache only. -/
def loadModule (st : ResolverSt) (id : String) : Option String :=
  lookupA st.cache id

/-- One resolution request as observed by the plugin during graph traversal;
on a throw the state is unchanged (the root branch throws before its cache
write). -/
def resolveStep (entries : Registry) (loader : String → Option String) (cwd : String)
    (st : ResolverSt) (req : String × Option String) : ResolverSt :=
  match resolveId entries loader cwd st req.1 req.2 with
  | .ok (_, st2) => st2
  | .error _ => st

/-- A build-run prefix: a sequence of resolution requests threaded through the
shared resolver state. -/
def runResolves (entries : Registry) (loader : String → Option String) (cwd : String)
    (st : ResolverSt) (reqs : List (String × Option String)) : ResolverSt :=
  reqs.foldl (resolveStep entries loader cwd) st

example :
    resolveStep [(("e0.js"), ⟨"a", "code0"⟩)] (fun p => some ("compiled:" ++ p)) ("/build")
      ⟨[], []⟩ (("./z.js"), some ("/build/a/x.js"))
    = ⟨[(("/build/a/z.js"), ("compiled:/build/a/z.js"))], [("/build/a/z.js")]⟩ := by decide

/-! ### Catalog loading and the release driver

From release.js `release()`: the language set and the missing-message ledger
are built by `i18n.all` (an external collaborator, modelled from the spec)
driving the in-source callback; the default-language check throws before any
prod document is written; the default-only flag then deletes the other
languages; prod HTML, manifest writes and the end-of-run missing-message
summary follow. -/

/-- Catalog data as read from `_messages`: the message-id universe of the
source catalog, and for each language code the set of message ids its catalog
resolves. -/
structure CatalogData where
  msgids : List String
  langs : List (String × List String)
deriving DecidableEq

/-- The missing-message ledger `missingMessages`: message id to the set of
languages lacking it (JS `Set` modelled as a duplicate-free insertion-ordered
list). -/
abbrev Ledger := List (String × List String)

/-- Replace the value stored under an existing key, keeping order (JS
property update; ledger keys are unique since a key is appended only when
absent). -/
def setKey : Ledger → String → List String → Ledger
  | [], _, _ => []
  | p :: t, k, v => if p.1 = k then (k, v) :: t else p :: setKey t k v

/-- The missing-message callback passed to `i18n.all` (release.js):
if the message id is new, bind it to a fresh set; then add the language. -/
def recordMissing (led : Ledger) (lang msgid : String) : Ledger :=
  match lookupA led msgid with
  | none => led ++ [(msgid, [lang])]
  | some s => setKey led msgid (if lang ∈ s then s else s ++ [lang])

/-- Modelled from the spec: the catalog collaborator `i18n.all`
(build/i18n.js, which is not part of the sources here) "enumerates
languageCode → lookup, invoking a callback for every (language, msgid) found
absent". The absences of one language are the source-catalog message ids its
own catalog does not resolve. -/
def absentPairs (d : CatalogData) : List (String × String) :=
  d.langs.flatMap (fun lp =>
    (d.msgids.filter (fun m => decide (¬ m ∈ lp.2))).map (fun m => (lp.1, m)))

/-- Fold the in-source callback over the reported absences. -/
def buildLedger (reports : List (String × String)) : Ledger :=
  reports.foldl (fun led p => recordMissing led p.1 p.2) []

/-- `i18n.all` as invoked by release.js: yields the language codes and, as a
side effect of the callback, the missing-message ledger. -/
def i18nAll (d : CatalogData) : List String × Ledger :=
  (d.langs.map (fun lp => lp.1), buildLedger (absentPairs d))

/-- Build configuration: the recognized options release.js branches on here. -/
structure BuildConfig where
  defaultLang : String
  defaultOnly : Bool
deriving DecidableEq

/-- release.js `pathForLang`: default language at the site root, other
languages under a per-language subdirectory. -/
def pathForLang (defaultLang lang : String) : String :=
  if lang = defaultLang then "." else "intl/" ++ lang ++ "_ALL"

/-- release.js `release()`, projected onto its catalog handling, prod document
writes and missing-message summary. The first component is the chronological
log of prod document paths written (`write(target, ...)` calls; `mkdirp`
creates directories only and is not a document write; the later static-bundle
writes depend on the external Rollup output and come after every path logged
here). The second is the outcome: the thrown default-language error, or the
end-of-run summary rows (message id, missing-language count, and the language
count the code divides by). Scene entries use the empty string for the index
page, as in scenes.json5. -/
def release (cfg : BuildConfig) (d : CatalogData) (scenes : List String)
    (prodOtherHtml : List String) :
    List String × Except String (List (String × Nat × Nat)) :=
  let langs := (i18nAll d).1
  let missingMessages := (i18nAll d).2
  if cfg.defaultLang ∈ langs then
    let langsF := if cfg.defaultOnly then langs.filter (fun l => decide (l = cfg.defaultLang))
                  else langs
    let otherWrites := prodOtherHtml.flatMap (fun tail =>
      langsF.map (fun lang => pathJoin3 ("dist/prod") (pathForLang cfg.defaultLang lang) tail))
    let sceneWrites := scenes.flatMap (fun sceneName =>
      langsF.map (fun lang => pathJoin3 ("dist/prod") (pathForLang cfg.defaultLang lang)
        (if sceneName = "" then "index.html" else sceneName ++ ".html")))
    let manifestWrites := langsF.map (fun lang =>
      pathJoin3 ("dist/prod") (pathForLang cfg.defaultLang lang) ("manifest.json"))
    let summary := missingMessages.map (fun p => (p.1, p.2.length, langsF.length))
    (otherWrites ++ sceneWrites ++ manifestWrites, .ok summary)
  else
    ([], .error ("Error: default lang \x27" ++ cfg.defaultLang ++ "\x27 not found in _messages"))

/-- The top-level driver (release.js bottom): a raised failure is caught once
and converted into process exit code 1; otherwise the process exits 0.
Returns (exit code, prod document writes). -/
def releaseMain (cfg : BuildConfig) (d : CatalogData) (scenes : List String)
    (prodOtherHtml : List String) : Nat × List String :=
  match release cfg d scenes prodOtherHtml with
  | (writes, .ok _) => (0, writes)
  | (writes, .error _) => (1, writes)

/-! ### Entry extraction

From release.js: per HTML document, scripts whose `src` is a remote URL are
excluded up front; classic scripts with a `src` feed `requiredScriptSources`;
each `type="module"` script becomes an entry point with a fresh id
`e<n>.js`, synthesized source, and its node cleared. Attribute absence is
modelled as the empty string (the falsy value the code tests). -/

/-- A `<script>` element as release.js reads it: `type`, `src` and
`textContent`, with absent attributes reflected as the empty string. -/
structure ScriptNode where
  type : String
  src : String
  textContent : String
deriving DecidableEq

/-- release.js: the synthesized entry source. A truthy `src` becomes a
single import statement, normalized to begin with a dot; otherwise the
inline script body is used verbatim. -/
def moduleScriptCode (s : ScriptNode) : String :=
  if s.src ≠ "" then
    let src := if strStartsWith s.src (".") then s.src else "./" ++ s.src
    "import \x27" ++ src ++ "\x27;"
  else s.textContent

/-- release.js: `scriptNode.textContent = ''; scriptNode.removeAttribute('src')`. -/
def clearScriptNode (s : ScriptNode) : ScriptNode :=
  { s with textContent := "", src := "" }

/-- The per-document loop over `moduleScriptNodes`: allocate ids `e<n>.js`
starting at the current registry size, record (dir, code), and clear each
node. Returns the new registry entries and the mutated nodes, in order. -/
def processModuleScripts (dir : String) :
    Nat → List ScriptNode → List (String × EntryData) × List ScriptNode
  | _, [] => ([], [])
  | start, s :: rest =>
    let id := "e" ++ toString start ++ ".js"
    let out := processModuleScripts dir (start + 1) rest
    ((id, ⟨dir, moduleScriptCode s⟩) :: out.1, clearScriptNode s :: out.2)

/-- The module-script portion of release.js entry extraction for one
document: filter `type="module"` scripts, then process them. -/
def extractFromDocument (dir : String) (start : Nat) (scripts : List ScriptNode) :
    List (String × EntryData) × List ScriptNode :=
  processModuleScripts dir start (scripts.filter (fun s => decide (s.type = "module")))

/-- release.js: classic scripts (`src` truthy, no `type` or
`type="text/javascript"`) are catalogued into `requiredScriptSources`. -/
def classicScriptSources (dir : String) (scripts : List ScriptNode) : List String :=
  (scripts.filter (fun s =>
      decide (s.src ≠ "" ∧ (s.type = "" ∨ s.type = "text/javascript")))).map
    (fun s => pathJoin dir s.src)

/-! ### Virtual module content (the scene-compilation resolver path)

From release.js `virtualModuleContent(id, importer)`: with no importer, an
identifier may embed a base64-encoded literal source body after the marker
`'::\0'`; the function decodes it with `Buffer.from(..., 'base64').toString()`
and returns it directly. Otherwise, non-relative ids yield `undefined`; for
relative ids the path is resolved against the importer's directory, made
relative to the script's own directory, and matched against the scene
registry, yielding a pending scene compilation. Node's base64 decoder
(ignoring non-alphabet characters) and `Buffer.toString`'s UTF-8 decoding
(replacement character on malformed sequences) are modelled below;
JS `indexOf`/`slice` positions coincide with character positions for the
code-point range these identifiers use. -/

/-- Value of one base64 alphabet character, `none` for any other character
(node ignores those). -/
def b64Val (c : Char) : Option Nat :=
  if 'A' ≤ c ∧ c ≤ 'Z' then some (c.toNat - 65)
  else if 'a' ≤ c ∧ c ≤ 'z' then some (c.toNat - 71)
  else if '0' ≤ c ∧ c ≤ '9' then some (c.toNat + 4)
  else if c = '+' then some 62
  else if c = '/' then some 63
  else none

/-- Reassemble bytes from 6-bit groups; a trailing group of two or three
sextets contributes one or two bytes, a lone trailing sextet none. -/
def b64Bytes : List Nat → List Nat
  | a :: b :: c :: d :: rest =>
    (a * 4 + b / 16) :: ((b % 16) * 16 + c / 4) :: ((c % 4) * 64 + d) :: b64Bytes rest
  | [a, b] => [a * 4 + b / 16]
  | [a, b, c] => [a * 4 + b / 16, (b % 16) * 16 + c / 4]
  | _ => []

/-- The UTF-8 replacement character U+FFFD. -/
def replChar : Char := Char.ofNat 65533

/-- A UTF-8 continuation byte. -/
def isContByte (b : Nat) : Bool := decide (128 ≤ b ∧ b < 192)

/-- UTF-8 decoding with replacement on malformed sequences (`Buffer.toString`).
`fuel` bounds recursion by the list length. -/
def utf8DecodeAux : Nat → List Nat → List Char
  | 0, _ => []
  | _, [] => []
  | fuel + 1, b :: rest =>
    if b < 128 then Char.ofNat b :: utf8DecodeAux fuel rest
    else if 194 ≤ b ∧ b ≤ 223 then
      match rest with
      | c :: rest2 =>
        if isContByte c then Char.ofNat ((b % 32) * 64 + c % 64) :: utf8DecodeAux fuel rest2
        else replChar :: utf8DecodeAux fuel rest
      | [] => [replChar]
    else if 224 ≤ b ∧ b ≤ 239 then
      match rest with
      | c :: d :: rest3 =>
        if isContByte c ∧ isContByte d then
          let v := (b % 16) * 4096 + (c % 64) * 64 + d % 64
          (if 55296 ≤ v ∧ v ≤ 57343 then replChar else Char.ofNat v) :: utf8DecodeAux fuel rest3
        else replChar :: utf8DecodeAux fuel rest
      | _ => replChar :: utf8DecodeAux fuel rest
    else if 240 ≤ b ∧ b ≤ 244 then
      match rest with
      | c :: d :: e :: rest4 =>
        if isContByte c ∧ isContByte d ∧ isContByte e then
          let v := (b % 8) * 262144 + (c % 64) * 4096 + (d % 64) * 64 + e % 64
          (if v ≤ 1114111 then Char.ofNat v else replChar) :: utf8DecodeAux fuel rest4
        else replChar :: utf8DecodeAux fuel rest
      | _ => replChar :: utf8DecodeAux fuel rest
    else replChar :: utf8DecodeAux fuel rest

/-- Bytes to text (`Buffer.prototype.toString` with the default encoding). -/
def utf8Decode (bs : List Nat) : List Char := utf8DecodeAux bs.length bs

/-- `Buffer.from(s, 'base64').toString()`. -/
def base64ToString (s : String) : String :=
  String.mk (utf8Decode (b64Bytes (s.data.filterMap b64Val)))

/-- Character index of the first occurrence of `pat` in `hay`
(JS `String.prototype.indexOf`, `none` for -1). -/
def firstSubstrIdx : List Char → List Char → Option Nat
  | [], pat => if pat = [] then some 0 else none
  | c :: t, pat =>
    if pat.isPrefixOf (c :: t) then some 0
    else (firstSubstrIdx t pat).map (fun n => n + 1)

/-- The inline marker `'::\0'`. -/
def inlineMarker : String := "::\x00"

/-- What `virtualModuleContent` returns when it returns something: a literal
source text (the decoded inline form), or a pending scene compilation (the
Promise for `compileScene`, identified by the matched scene name). -/
inductive VMContent where
  | text (s : String)
  | sceneCompile (sceneName : String)
deriving DecidableEq

/-- The tail of release.js `virtualModuleContent` past the inline-marker
branch: non-relative ids are not real files (`undefined`); relative ids are
resolved against `path.dirname(importer)` (a `TypeError` if the importer is
undefined here), made relative to the script directory `rootDir`, and matched
by the external `matchSceneMin` collaborator. -/
def vmcTail (matchSceneMin : String → Option String) (rootDir cwd : String)
    (id : String) (importer : Option String) : Except String (Option VMContent) :=
  if ¬ (strStartsWith id ("./") = true ∨ strStartsWith id ("../") = true) then .ok none
  else
    match importer with
    | none => .error ("TypeError: path.dirname of undefined")
    | some imp =>
      let resolved := pathRelative rootDir (pathResolve cwd (pathDirname imp) id)
      match matchSceneMin resolved with
      | some sceneName => .ok (some (.sceneCompile sceneName))
      | none => .ok none

/-- release.js `virtualModuleContent(id, importer)`. With `importer`
undefined, an id containing the inline marker returns the base64-decoded
suffix immediately — a plain string, produced without consulting
`matchSceneMin`, `compileScene`, the loader collaborator or the filesystem. -/
def virtualModuleContent (matchSceneMin : String → Option String) (rootDir cwd : String)
    (id : String) (importer : Option String) : Except String (Option VMContent) :=
  match importer with
  | none =>
    match firstSubstrIdx id.data inlineMarker.data with
    | some i => .ok (some (.text (base64ToString (String.mk (id.data.drop (i + 3))))))
    | none => vmcTail matchSceneMin rootDir cwd id none
  | some _ => vmcTail matchSceneMin rootDir cwd id importer

/-! ### Development message lookup

From the magic helpers module (src/unnamed/part_000): `_msg(id)` reads the
English development catalog. JS truthiness of the `raw` and `message` fields
is modelled over `Option String`: an absent field and the empty string are
both falsy. -/

/-- One entry of the development message catalog JSON: optional `raw` and
`message` fields. -/
structure MsgData where
  raw : Option String
  message : Option String
deriving DecidableEq

/-- JS truthiness of an optional string field. -/
def truthy : Option String → Bool
  | none => false
  | some s => s ≠ ""

/-- The magic helper `_msg`:
`const data = messages[id.toString()]; return data && (data.raw || data.message) || '?';`. -/
def _msg (messages : List (String × MsgData)) (id : String) : String :=
  match lookupA messages id with
  | none => "?"
  | some data =>
    if truthy data.raw then data.raw.getD ("")
    else if truthy data.message then data.message.getD ("")
    else "?"

/-! ### Concrete instances used by witnesses and counterexamples -/

/-- A one-entry registry: `e0.js` owned by `scenes/app`. -/
def entriesW : Registry := [(("e0.js"), ⟨"scenes/app", "import \x27./app.js\x27;"⟩)]

/-- A loader collaborator that compiles every path deterministically. -/
def loaderW (p : String) : Option String := some ("compiled:" ++ p)

/-- A catalog with default language `en` only partially translated into `fr`
and `de`: message `m1` is missing from both. -/
def catalogW : CatalogData :=
  ⟨[("m1")], [(("en"), [("m1")]), (("fr"), []), (("de"), [])]⟩

/-- A document's scripts: an external module script, a classic script, and an
inline module script. -/
def scriptsW : List ScriptNode :=
  [⟨"module", "foo.js", ""⟩, ⟨"", "third_party/lib.js", ""⟩,
   ⟨"module", "", "console.log(1)"⟩]

example : pathDirname ("/build/a/x.js") = "/build/a" := by decide
example : base64ToString ("aGVsbG8=") = "hello" := by decide
example : ("e" ++ toString (0 : Nat) ++ ".js") = "e0.js" := by decide
example :
    (release ⟨"en", true⟩ ⟨[("m1")], [(("en"), [("m1")]), (("fr"), []), (("de"), [])]⟩ [] []).2
      = .ok [(("m1"), 2, 1)] := by rfl
example :
    virtualModuleContent (fun _ => none) ("/root") ("/") ("x::\x00aGVsbG8=") none
      = .ok (some (.text ("hello"))) := by rfl
example : _msg [(("a"), ⟨some ("R"), some ("M")⟩)] ("a") = "R" := by decide
example : _msg [(("a"), ⟨some (""), some ("M")⟩)] ("a") = "M" := by decide
example : _msg [(("a"), ⟨none, none⟩)] ("b") = "?" := by decide
example :
    firstSubstrIdx ("x::\x00aGVsbG8=").data inlineMarker.data = some 1 := by decide
example :
    release ⟨"en", false⟩ ⟨[], [(("fr"), [])]⟩ [] [] =
      ([], .error ("Error: default lang \x27en\x27 not found in _messages")) := by rfl
example : pathResolve ("/build") ("a") ("./z.js") = "/build/a/z.js" := by decide
example : pathJoin3 ("dist/prod") (".") ("cast.html") = "dist/prod/cast.html" := by decide
example : pathJoin3 ("dist/prod") ("intl/fr_ALL") ("cast.html")
    = "dist/prod/intl/fr_ALL/cast.html" := by decide

/-! ## Helper lemmas -/

theorem lookupA_append_left {α : Type} (l1 l2 : List (String × α)) (k : String) (v : α)
    (h : lookupA l1 k = some v) : lookupA (l1 ++ l2) k = some v := by
  induction l1 with
  | nil => simp [lookupA] at h
  | cons p t ih =>
    by_cases hk : k = p.1
    · simpa [lookupA, hk] using h
    · simp [lookupA, hk] at h ⊢
      exact ih h

theorem lookupA_append_none {α : Type} (l1 l2 : List (String × α)) (k : String)
    (h : lookupA l1 k = none) : lookupA (l1 ++ l2) k = lookupA l2 k := by
  induction l1 with
  | nil => simp
  | cons p t ih =>
    by_cases hk : k = p.1
    · simp [lookupA, hk] at h
    · simp [lookupA, hk] at h ⊢
      exact ih h

theorem lookupA_setKey_self (led : Ledger) (k : String) (v s : List String)
    (h : lookupA led k = some s) : lookupA (setKey led k v) k = some v := by
  induction led with
  | nil => simp [lookupA] at h
  | cons p t ih =>
    obtain ⟨pk, pv⟩ := p
    by_cases hpk : pk = k
    · subst hpk
      simp [setKey, lookupA]
    · have hk2 : ¬ k = pk := fun hh => hpk hh.symm
      simp [lookupA, hk2] at h
      simp [setKey, lookupA, hpk, hk2]
      exact ih h

theorem lookupA_setKey_other (led : Ledger) (k k2 : String) (v : List String)
    (h : ¬ k2 = k) : lookupA (setKey led k v) k2 = lookupA led k2 := by
  induction led with
  | nil => simp [setKey]
  | cons p t ih =>
    obtain ⟨pk, pv⟩ := p
    by_cases hpk : pk = k
    · subst hpk
      simp [setKey, lookupA, h]
    · simp [setKey, lookupA, hpk]
      by_cases hk2 : k2 = pk
      · simp [lookupA, hk2]
      · simp [lookupA, hk2]
        exact ih

theorem recordMissing_mem (led : Ledger) (lang msgid : String) :
    ∃ s, lookupA (recordMissing led lang msgid) msgid = some s ∧ lang ∈ s := by
  unfold recordMissing
  cases h : lookupA led msgid with
  | none =>
    refine ⟨[lang], ?_, by simp⟩
    rw [lookupA_append_none led _ msgid h]
    simp [lookupA]
  | some s =>
    refine ⟨if lang ∈ s then s else s ++ [lang], lookupA_setKey_self led msgid _ s h, ?_⟩
    by_cases hl : lang ∈ s <;> simp [hl]

theorem recordMissing_mono (led : Ledger) (lang msgid lang2 msgid2 : String)
    (s : List String) (h : lookupA led msgid = some s) (hl : lang ∈ s) :
    ∃ s2, lookupA (recordMissing led lang2 msgid2) msgid = some s2 ∧ lang ∈ s2 := by
  unfold recordMissing
  cases h2 : lookupA led msgid2 with
  | none => exact ⟨s, lookupA_append_left led _ msgid s h, hl⟩
  | some t =>
    by_cases hm : msgid = msgid2
    · subst hm
      rw [h] at h2
      cases h2
      refine ⟨if lang2 ∈ s then s else s ++ [lang2],
        lookupA_setKey_self led msgid _ s h, ?_⟩
      by_cases hl2 : lang2 ∈ s <;> simp [hl2, hl]
    · rw [lookupA_setKey_other led msgid2 msgid _ hm]
      exact ⟨s, h, hl⟩

theorem buildLedger_fold (reports : List (String × String)) :
    ∀ (led : Ledger) (lang msgid : String),
    ((lang, msgid) ∈ reports ∨ ∃ s, lookupA led msgid = some s ∧ lang ∈ s) →
    ∃ s, lookupA (reports.foldl (fun led p => recordMissing led p.1 p.2) led) msgid
        = some s ∧ lang ∈ s := by
  induction reports with
  | nil =>
    intro led lang msgid h
    rcases h with hmem | hs
    · cases hmem
    · simpa using hs
  | cons p rest ih =>
    intro led lang msgid h
    rw [List.foldl_cons]
    apply ih
    rcases h with hmem | ⟨s, hs, hl⟩
    · rcases List.mem_cons.mp hmem with heq | hmem2
      · right
        have : p.1 = lang ∧ p.2 = msgid := by
          constructor <;> rw [← heq]
        rcases this with ⟨h1, h2⟩
        rw [← h1, ← h2]
        exact recordMissing_mem led p.1 p.2
      · left; exact hmem2
    · right; exact recordMissing_mono led lang msgid p.1 p.2 s hs hl

/-! ## Claims -/

/-- Claim C3: after catalog loading, every (language, message id) absence the
catalog collaborator reports ends in the ledger: the ledger has the message
id as a key and the language in the set stored under it. -/
theorem c3_ledger_complete (d : CatalogData) (lang msgid : String)
    (present : List String) (hl : (lang, present) ∈ d.langs)
    (hm : msgid ∈ d.msgids) (habs : ¬ msgid ∈ present) :
    ∃ s, lookupA (i18nAll d).2 msgid = some s ∧ lang ∈ s := by
  have hrep : (lang, msgid) ∈ absentPairs d := by
    unfold absentPairs
    refine List.mem_flatMap.mpr ⟨(lang, present), hl, ?_⟩
    refine List.mem_map.mpr ⟨msgid, List.mem_filter.mpr ⟨hm, ?_⟩, rfl⟩
    simpa using habs
  unfold i18nAll buildLedger
  exact buildLedger_fold (absentPairs d) [] lang msgid (Or.inl hrep)

/-- Witness for C3: `fr` is missing `m1` and lands in the ledger under `m1`. -/
theorem c3_witness :
    ∃ s, lookupA (i18nAll catalogW).2 ("m1") = some s ∧ ("fr") ∈ s :=
  c3_ledger_complete catalogW ("fr") ("m1") [] (by decide) (by decide) (by decide)

/-- Claim C2: if the configured default language is absent from the loaded
language set, release throws before any output document is written — the
document-write log is empty, the result is an error, and the top-level driver
converts the failure into exit code 1 with nothing written. -/
theorem c2_default_lang_fatal (cfg : BuildConfig) (d : CatalogData)
    (scenes prodOtherHtml : List String) (h : ¬ cfg.defaultLang ∈ (i18nAll d).1) :
    (release cfg d scenes prodOtherHtml).1 = []
    ∧ (∃ e, (release cfg d scenes prodOtherHtml).2 = .error e)
    ∧ releaseMain cfg d scenes prodOtherHtml = (1, []) := by
  refine ⟨?_, ⟨("Error: default lang \x27" ++ cfg.defaultLang ++ "\x27 not found in _messages"), ?_⟩, ?_⟩ <;>
    simp [release, releaseMain, h]

/-- Witness for C2 at a catalog containing only `fr` while the default is
`en`. -/
theorem c2_witness :
    (release ⟨"en", false⟩ ⟨[], [(("fr"), [])]⟩ [] []).1 = []
    ∧ (∃ e, (release ⟨"en", false⟩ ⟨[], [(("fr"), [])]⟩ [] []).2 = .error e)
    ∧ releaseMain ⟨"en", false⟩ ⟨[], [(("fr"), [])]⟩ [] [] = (1, []) :=
  c2_default_lang_fatal ⟨"en", false⟩ ⟨[], [(("fr"), [])]⟩ [] [] (by decide)

/-- A duplicate-free list keeps exactly one element equal to a member. -/
theorem filter_eq_len_one (l : List String) (a : String) (hnd : l.Nodup) (ha : a ∈ l) :
    (l.filter (fun x => decide (x = a))).length = 1 := by
  induction l with
  | nil => cases ha
  | cons b t ih =>
    rw [List.filter_cons]
    rcases List.nodup_cons.mp hnd with ⟨hbt, hndt⟩
    by_cases hba : b = a
    · subst hba
      have hnone : t.filter (fun x => decide (x = b)) = [] := by
        rw [List.filter_eq_nil_iff]
        intro x hx
        simp only [decide_eq_true_eq]
        intro hxb
        exact hbt (hxb ▸ hx)
      simp [hnone]
    · have hat : a ∈ t := by
        rcases List.mem_cons.mp ha with h1 | h2
        · exact absurd h1.symm hba
        · exact h2
      simp [hba]
      exact ih hndt hat

/-- A resolution step never disturbs a cache entry that already holds the
loader's output for a non-entry path: root steps write only entry ids, and a
non-root step for the same path rewrites the same loader output. -/
theorem resolveStep_cache_stable (entries : Registry) (loader : String → Option String)
    (cwd : String) (st : ResolverSt) (p b : String) (req : String × Option String)
    (hl : loader p = some b) (he : lookupA entries p = none)
    (hc : lookupA st.cache p = some b) :
    lookupA (resolveStep entries loader cwd st req).cache p = some b := by
  obtain ⟨id, importer⟩ := req
  cases importer with
  | none =>
    cases hq : lookupA entries id with
    | none => simpa [resolveStep, resolveId, hq] using hc
    | some data =>
      have hne : ¬ p = id := by
        intro hpe
        rw [hpe, hq] at he
        cases he
      simp [resolveStep, resolveId, hq, cacheInsert, lookupA, hne, hc]
  | some imp =>
    cases hq : loader (nonRootTarget entries cwd id imp) with
    | none => simpa [resolveStep, resolveId, hq] using hc
    | some body =>
      by_cases hp : p = nonRootTarget entries cwd id imp
      · have hb : body = b := by
          rw [← hp, hl] at hq
          cases hq
          rfl
        simp [resolveStep, resolveId, hq, cacheInsert, lookupA, hp, hb]
      · simp [resolveStep, resolveId, hq, cacheInsert, lookupA, hp, hc]

/-- Stability over a whole run: once a non-entry path's cache entry holds the
loader's output, every later load in the run returns it. -/
theorem runResolves_cache_stable (entries : Registry) (loader : String → Option String)
    (cwd : String) (p b : String)
    (hl : loader p = some b) (he : lookupA entries p = none) :
    ∀ (reqs : List (String × Option String)) (st : ResolverSt),
    lookupA st.cache p = some b →
    lookupA (runResolves entries loader cwd st reqs).cache p = some b := by
  intro reqs
  induction reqs with
  | nil => intro st hc; simpa [runResolves] using hc
  | cons r rest ih =>
    intro st hc
    have h1 := resolveStep_cache_stable entries loader cwd st p b r hl he hc
    simpa [runResolves] using ih (resolveStep entries loader cwd st r) h1

/-- Counterexample for C1 as stated: with two importers in the same directory
both importing `./z.js`, the resolved path `/build/a/z.js` is handed to the
compiling-loader collaborator on each of the two resolution visits — the
compile log holds it twice, so it is not compiled "exactly once ... and never
recompiled on later visits". -/
theorem c1_counterexample :
    (runResolves entriesW loaderW ("/build") ⟨[], []⟩
        [(("./z.js"), some ("/build/a/x.js")), (("./z.js"), some ("/build/a/y.js"))]).compiles
      = [("/build/a/z.js"), ("/build/a/z.js")]
    ∧ ((runResolves entriesW loaderW ("/build") ⟨[], []⟩
        [(("./z.js"), some ("/build/a/x.js")),
         (("./z.js"), some ("/build/a/y.js"))]).compiles.count ("/build/a/z.js") ≠ 1) :=
  ⟨by decide, by decide⟩

/-- Claim C1 (amended): entry-point roots are seeded into the cache whenever
root resolution runs for them; each non-root resolved path is compiled and
written into the cache on every resolution visit (at least the first, and
again on later visits — not exactly once); because the loader collaborator is
a function of the path, every such write stores the same content, so once a
non-entry path is cached every subsequent load in the run returns that same
cached content. -/
theorem c1_cache_population (entries : Registry) (loader : String → Option String)
    (cwd : String) :
    (∀ (st : ResolverSt) (id : String) (data : EntryData),
      lookupA entries id = some data →
      ∃ st2, resolveId entries loader cwd st id none = .ok (.resolved id, st2)
        ∧ loadModule st2 id = some data.code)
    ∧ (∀ (st : ResolverSt) (id imp : String),
      (resolveStep entries loader cwd st ((id), some imp)).compiles
        = st.compiles ++ [nonRootTarget entries cwd id imp])
    ∧ (∀ (st : ResolverSt) (id imp b : String),
      loader (nonRootTarget entries cwd id imp) = some b →
      loadModule (resolveStep entries loader cwd st ((id), some imp))
        (nonRootTarget entries cwd id imp) = some b)
    ∧ (∀ (st : ResolverSt) (reqs : List (String × Option String)) (p b : String),
      loader p = some b → lookupA entries p = none → loadModule st p = some b →
      loadModule (runResolves entries loader cwd st reqs) p = some b) := by
  refine ⟨fun st id data h => ?_, fun st id imp => ?_, fun st id imp b h => ?_,
    fun st reqs p b hl he hc => ?_⟩
  · exact ⟨⟨cacheInsert st.cache id data.code, st.compiles⟩,
      by simp [resolveId, h], by simp [loadModule, cacheInsert, lookupA]⟩
  · cases h : loader (nonRootTarget entries cwd id imp) <;>
      simp [resolveStep, resolveId, h]
  · simp [resolveStep, resolveId, h, loadModule, cacheInsert, lookupA]
  · exact runResolves_cache_stable entries loader cwd p b hl he reqs st hc

/-- Witness for C1 (amended): a cached compile of `/build/a/z.js` survives a
later resolution visit to the same path and a root re-seed of `e0.js`, and a
subsequent load still returns the compiled content. -/
theorem c1_witness :
    loadModule (runResolves entriesW loaderW ("/build")
        ⟨[(("/build/a/z.js"), ("compiled:/build/a/z.js"))], [("/build/a/z.js")]⟩
        [(("./z.js"), some ("/build/a/y.js")), (("e0.js"), none)]) ("/build/a/z.js")
      = some ("compiled:/build/a/z.js") :=
  (c1_cache_population entriesW loaderW ("/build")).2.2.2
    ⟨[(("/build/a/z.js"), ("compiled:/build/a/z.js"))], [("/build/a/z.js")]⟩
    [(("./z.js"), some ("/build/a/y.js")), (("e0.js"), none)]
    ("/build/a/z.js") ("compiled:/build/a/z.js") (by decide) (by decide) (by decide)

/-- Counterexample for C4 as stated: with the default-only flag set and a
catalog of three loaded languages (`en`, `fr`, `de`) where `m1` is missing in
two of them, the summary row divides the missing count 2 by 1 — the language
count left after the default-only deletion — and not by the 3 loaded
languages the claim requires. -/
theorem c4_counterexample :
    (release ⟨"en", true⟩ catalogW [] []).2 = .ok [(("m1"), 2, 1)]
    ∧ (i18nAll catalogW).1.length = 3
    ∧ (1 : Nat) ≠ 3 :=
  ⟨rfl, rfl, by decide⟩

/-- Claim C4 (amended): with any configuration whose default language is
loaded, missing-message recording runs for every loaded language — the
summary rows are the ledger of the full pre-filter language set — and each
row's divisor is the language count left after the default-only filter (1
when the flag is set, the loaded count otherwise); the summary never affects
the exit status, which is 0 whenever the default-language check passes. -/
theorem c4_summary (cfg : BuildConfig) (d : CatalogData)
    (scenes prodOtherHtml : List String)
    (hnd : (i18nAll d).1.Nodup) (hmem : cfg.defaultLang ∈ (i18nAll d).1) :
    (release cfg d scenes prodOtherHtml).2
      = .ok ((i18nAll d).2.map (fun p => (p.1, p.2.length,
          if cfg.defaultOnly then 1 else (i18nAll d).1.length)))
    ∧ (releaseMain cfg d scenes prodOtherHtml).1 = 0 := by
  constructor
  · cases hdo : cfg.defaultOnly with
    | false => simp [release, hmem, hdo]
    | true => simp [release, hmem, hdo, filter_eq_len_one _ _ hnd hmem]
  · simp [releaseMain, release, hmem]

/-- Witness for C4 (amended) at the three-language catalog with the
default-only flag set: the numerator still counts `fr` and `de`, the divisor
is 1, and the exit status is 0. -/
theorem c4_witness :
    (release ⟨"en", true⟩ catalogW [] []).2
      = .ok ((i18nAll catalogW).2.map (fun p => (p.1, p.2.length,
          if (true : Bool) then 1 else (i18nAll catalogW).1.length)))
    ∧ (releaseMain ⟨"en", true⟩ catalogW [] []).1 = 0 :=
  c4_summary ⟨"en", true⟩ catalogW [] [] (by decide) (by decide)

/-- Positions in `processModuleScripts` output: the i-th module script gets
id `e<start+i>.js`, the registered code, and its node cleared. -/
theorem processModuleScripts_get (dir : String) :
    ∀ (ms : List ScriptNode) (start i : Nat) (s : ScriptNode),
    ms[i]? = some s →
    (processModuleScripts dir start ms).1[i]?
        = some (("e" ++ toString (start + i) ++ ".js"), ⟨dir, moduleScriptCode s⟩)
    ∧ (processModuleScripts dir start ms).2[i]? = some (clearScriptNode s) := by
  intro ms
  induction ms with
  | nil => intro start i s h; simp at h
  | cons hd tl ih =>
    intro start i s h
    cases i with
    | zero =>
      simp at h
      subst h
      simp [processModuleScripts]
    | succ n =>
      simp at h
      have hrec := ih (start + 1) n s h
      have harith : start + 1 + n = start + (n + 1) := by omega
      rw [harith] at hrec
      constructor
      · simpa [processModuleScripts] using hrec.1
      · simpa [processModuleScripts] using hrec.2

/-- Claim C5: every module-type script found during entry extraction yields
an EntryPoint whose source is exactly `import '<src>';` with the original
src value prefixed by `./` when it does not already start with a dot, or the
inline body verbatim when there is no src; and the script node's text content
and src attribute are cleared. -/
theorem c5_module_script (dir : String) (start i : Nat) (scripts : List ScriptNode)
    (s : ScriptNode)
    (hs : (scripts.filter (fun n => decide (n.type = "module")))[i]? = some s) :
    (extractFromDocument dir start scripts).1[i]?
      = some (("e" ++ toString (start + i) ++ ".js"),
          ⟨dir, if s.src ≠ "" then
              "import \x27" ++ (if strStartsWith s.src (".") then s.src else "./" ++ s.src)
                ++ "\x27;"
            else s.textContent⟩)
    ∧ (extractFromDocument dir start scripts).2[i]?
      = some { s with textContent := "", src := "" } := by
  have h := processModuleScripts_get dir
    (scripts.filter (fun n => decide (n.type = "module"))) start i s hs
  unfold extractFromDocument
  exact ⟨h.1, h.2⟩

/-- Witness for C5: the external module script with `src="foo.js"` becomes
`e0.js` with source exactly `import \x27./foo.js\x27;`, the inline module
script keeps its body verbatim as `e1.js`, and both nodes are cleared. -/
theorem c5_witness :
    ((extractFromDocument ("scenes/app") 0 scriptsW).1[0]?
      = some (("e0.js"), ⟨"scenes/app", "import \x27./foo.js\x27;"⟩)
    ∧ (extractFromDocument ("scenes/app") 0 scriptsW).2[0]?
      = some ⟨"module", "", ""⟩)
    ∧ ((extractFromDocument ("scenes/app") 0 scriptsW).1[1]?
      = some (("e1.js"), ⟨"scenes/app", "console.log(1)"⟩)) := by
  have h0 := c5_module_script ("scenes/app") 0 0 scriptsW ⟨"module", "foo.js", ""⟩ (by decide)
  have h1 := c5_module_script ("scenes/app") 0 1 scriptsW ⟨"module", "", "console.log(1)"⟩
    (by decide)
  exact ⟨⟨h0.1.trans (by decide), h0.2.trans (by decide)⟩, h1.1.trans (by decide)⟩

/-- Claim C6: for every resolution request with a defined importer, the base
directory is the EntryPoint's owning directory when the importer is a
registered entry id, else the directory of the importer's path; the
identifier resolved against that base is the path handed to the
compiling-loader collaborator, and on success it becomes the resolved module
id. -/
theorem c6_importer_base (entries : Registry) (loader : String → Option String)
    (cwd : String) (st : ResolverSt) (id imp : String) :
    (∀ data, lookupA entries imp = some data →
      nonRootTarget entries cwd id imp = pathResolve cwd data.dir id)
    ∧ (lookupA entries imp = none →
      nonRootTarget entries cwd id imp = pathResolve cwd (pathDirname imp) id)
    ∧ (resolveStep entries loader cwd st ((id), some imp)).compiles
        = st.compiles ++ [nonRootTarget entries cwd id imp]
    ∧ (∀ body, loader (nonRootTarget entries cwd id imp) = some body →
      ∃ st2, resolveId entries loader cwd st id (some imp)
        = .ok (.resolved (nonRootTarget entries cwd id imp), st2)) := by
  refine ⟨fun data h => ?_, fun h => ?_, ?_, fun body h => ?_⟩
  · simp [nonRootTarget, h]
  · simp [nonRootTarget, h]
  · cases h : loader (nonRootTarget entries cwd id imp) <;>
      simp [resolveStep, resolveId, h]
  · exact ⟨⟨cacheInsert st.cache (nonRootTarget entries cwd id imp) body,
      st.compiles ++ [nonRootTarget entries cwd id imp]⟩, by simp [resolveId, h]⟩

/-- Witness for C6: an entry importer uses the entry's owning directory, a
plain path importer uses its own directory, and the resolved path is handed
to the loader and returned. -/
theorem c6_witness :
    nonRootTarget entriesW ("/build") ("./util.js") ("e0.js")
      = pathResolve ("/build") ("scenes/app") ("./util.js")
    ∧ nonRootTarget entriesW ("/build") ("./util.js") ("/build/lib/x.js")
      = pathResolve ("/build") (pathDirname ("/build/lib/x.js")) ("./util.js")
    ∧ (resolveStep entriesW loaderW ("/build") ⟨[], []⟩ (("./util.js"), some ("e0.js"))).compiles
      = [] ++ [nonRootTarget entriesW ("/build") ("./util.js") ("e0.js")]
    ∧ ∃ st2, resolveId entriesW loaderW ("/build") ⟨[], []⟩ ("./util.js") (some ("e0.js"))
      = .ok (.resolved (nonRootTarget entriesW ("/build") ("./util.js") ("e0.js")), st2) :=
  ⟨(c6_importer_base entriesW loaderW ("/build") ⟨[], []⟩ ("./util.js") ("e0.js")).1
      ⟨"scenes/app", "import \x27./app.js\x27;"⟩ (by decide),
   (c6_importer_base entriesW loaderW ("/build") ⟨[], []⟩ ("./util.js") ("/build/lib/x.js")).2.1
      (by decide),
   (c6_importer_base entriesW loaderW ("/build") ⟨[], []⟩ ("./util.js") ("e0.js")).2.2.1,
   (c6_importer_base entriesW loaderW ("/build") ⟨[], []⟩ ("./util.js") ("e0.js")).2.2.2
      ("compiled:/build/scenes/app/util.js") (by decide)⟩

/-- Claim C7: for a relative-resolution request, a loader returning
`undefined` makes the resolver return no resolution of its own — the cache is
untouched and control falls through to filesystem module lookup; a compiled
output is cached under the resolved absolute path, which is returned as the
module id. -/
theorem c7_loader_fallthrough (entries : Registry) (loader : String → Option String)
    (cwd : String) (st : ResolverSt) (id imp : String) :
    (loader (nonRootTarget entries cwd id imp) = none →
      resolveId entries loader cwd st id (some imp)
        = .ok (.fallthrough, ⟨st.cache, st.compiles ++ [nonRootTarget entries cwd id imp]⟩))
    ∧ (∀ body, loader (nonRootTarget entries cwd id imp) = some body →
      resolveId entries loader cwd st id (some imp)
        = .ok (.resolved (nonRootTarget entries cwd id imp),
            ⟨cacheInsert st.cache (nonRootTarget entries cwd id imp) body,
             st.compiles ++ [nonRootTarget entries cwd id imp]⟩)) := by
  constructor
  · intro h; simp [resolveId, h]
  · intro body h; simp [resolveId, h]

/-- Witness for C7: a loader recognizing nothing yields fallthrough with the
cache untouched; a loader recognizing the path caches its output. -/
theorem c7_witness :
    resolveId entriesW (fun _ => none) ("/build") ⟨[], []⟩ ("./util.js") (some ("e0.js"))
      = .ok (.fallthrough,
          ⟨[], [] ++ [nonRootTarget entriesW ("/build") ("./util.js") ("e0.js")]⟩)
    ∧ resolveId entriesW loaderW ("/build") ⟨[], []⟩ ("./util.js") (some ("e0.js"))
      = .ok (.resolved (nonRootTarget entriesW ("/build") ("./util.js") ("e0.js")),
          ⟨cacheInsert [] (nonRootTarget entriesW ("/build") ("./util.js") ("e0.js"))
             ("compiled:/build/scenes/app/util.js"),
           [] ++ [nonRootTarget entriesW ("/build") ("./util.js") ("e0.js")]⟩) :=
  ⟨(c7_loader_fallthrough entriesW (fun _ => none) ("/build") ⟨[], []⟩ ("./util.js") ("e0.js")).1
      rfl,
   (c7_loader_fallthrough entriesW loaderW ("/build") ⟨[], []⟩ ("./util.js") ("e0.js")).2
      ("compiled:/build/scenes/app/util.js") (by decide)⟩

/-- Claim C8: an identifier requested with no importer that contains the
inline marker yields exactly the base64-decoded text after the marker,
returned directly as a plain string — uniformly in the scene-match
collaborator, which is never consulted. -/
theorem c8_inline_decode (matchSceneMin : String → Option String) (rootDir cwd : String)
    (id : String) (i : Nat) (h : firstSubstrIdx id.data inlineMarker.data = some i) :
    virtualModuleContent matchSceneMin rootDir cwd id none
      = .ok (some (.text (base64ToString (String.mk (id.data.drop (i + 3)))))) := by
  simp [virtualModuleContent, h]

/-- Witness for C8 at the identifier `x::\0aGVsbG8=`: the marker sits at
index 1 and the suffix decodes to `hello`. -/
theorem c8_witness :
    firstSubstrIdx ("x::\x00aGVsbG8=").data inlineMarker.data = some 1
    ∧ virtualModuleContent (fun _ => none) ("/root") ("/") ("x::\x00aGVsbG8=") none
        = .ok (some (.text (base64ToString (String.mk (("x::\x00aGVsbG8=").data.drop 4)))))
    ∧ base64ToString (String.mk (("x::\x00aGVsbG8=").data.drop 4)) = "hello" :=
  ⟨by decide,
   c8_inline_decode (fun _ => none) ("/root") ("/") ("x::\x00aGVsbG8=") 1 (by decide),
   by decide⟩

/-- Claim C9: root resolution is only total when the identifier is a
registered entry-point id. A missing identifier neither falls through nor
returns a resolution: the resolver throws dereferencing the missing registry
record, before any cache write. Under the precondition, the entry's source is
cached under its id and the id is returned. -/
theorem c9_root_resolution (entries : Registry) (loader : String → Option String)
    (cwd : String) (st : ResolverSt) (id : String) :
    (lookupA entries id = none →
      ∃ e, resolveId entries loader cwd st id none = .error e)
    ∧ (∀ data, lookupA entries id = some data →
      resolveId entries loader cwd st id none
        = .ok (.resolved id, ⟨cacheInsert st.cache id data.code, st.compiles⟩)) := by
  constructor
  · intro h
    exact ⟨("TypeError: cannot read \x27code\x27 of undefined"), by simp [resolveId, h]⟩
  · intro data h; simp [resolveId, h]

/-- Witness for C9: an unregistered root id throws; the registered `e0.js`
is seeded and returned. -/
theorem c9_witness :
    (∃ e, resolveId entriesW loaderW ("/build") ⟨[], []⟩ ("missing.js") none = .error e)
    ∧ resolveId entriesW loaderW ("/build") ⟨[], []⟩ ("e0.js") none
      = .ok (.resolved ("e0.js"),
          ⟨cacheInsert [] ("e0.js") ("import \x27./app.js\x27;"), []⟩) :=
  ⟨(c9_root_resolution entriesW loaderW ("/build") ⟨[], []⟩ ("missing.js")).1 (by decide),
   (c9_root_resolution entriesW loaderW ("/build") ⟨[], []⟩ ("e0.js")).2
      ⟨"scenes/app", "import \x27./app.js\x27;"⟩ (by decide)⟩

/-- Claim C10: `_msg` is total over string ids: an id absent from the catalog,
or present with neither a truthy `raw` nor a truthy `message`, yields `?`;
otherwise the truthy `raw` field wins, else the truthy `message` field. -/
theorem c10_msg_total (messages : List (String × MsgData)) (id : String) :
    (lookupA messages id = none → _msg messages id = "?")
    ∧ (∀ data, lookupA messages id = some data → truthy data.raw = false →
        truthy data.message = false → _msg messages id = "?")
    ∧ (∀ data s, lookupA messages id = some data → data.raw = some s → s ≠ "" →
        _msg messages id = s)
    ∧ (∀ data s, lookupA messages id = some data → truthy data.raw = false →
        data.message = some s → s ≠ "" → _msg messages id = s) := by
  refine ⟨fun h => ?_, fun data h1 h2 h3 => ?_, fun data s h1 h2 h3 => ?_,
    fun data s h1 h2 h3 h4 => ?_⟩
  · simp [_msg, h]
  · simp [_msg, h1, h2, h3]
  · simp [_msg, h1, truthy, h2, h3]
  · cases hr : data.raw with
    | none => simp [_msg, h1, hr, truthy, h3, h4]
    | some r =>
      have hr0 : r = "" := by
        by_contra hne
        simp [truthy, hr, hne] at h2
      subst hr0
      simp [_msg, h1, hr, truthy, h3, h4]

/-- Witness for C10: unknown id, entry with only falsy fields, truthy raw
winning over message, and empty raw falling back to message. -/
theorem c10_witness :
    _msg [(("a"), ⟨some (""), none⟩)] ("b") = "?"
    ∧ _msg [(("a"), ⟨some (""), none⟩)] ("a") = "?"
    ∧ _msg [(("r"), ⟨some ("R"), some ("M")⟩)] ("r") = "R"
    ∧ _msg [(("m"), ⟨some (""), some ("M")⟩)] ("m") = "M" :=
  ⟨(c10_msg_total [(("a"), ⟨some (""), none⟩)] ("b")).1 (by decide),
   (c10_msg_total [(("a"), ⟨some (""), none⟩)] ("a")).2.1 ⟨some (""), none⟩
      (by decide) (by decide) (by decide),
   (c10_msg_total [(("r"), ⟨some ("R"), some ("M")⟩)] ("r")).2.2.1 ⟨some ("R"), some ("M")⟩
      ("R") (by decide) rfl (by decide),
   (c10_msg_total [(("m"), ⟨some (""), some ("M")⟩)] ("m")).2.2.2 ⟨some (""), some ("M")⟩
      ("M") (by decide) (by decide) rfl (by decide)⟩

end Santa
